import Mathlib

/-!
Verification of the runUp Arduino Pomodoro timer firmware
(`src/runup-arduino-pomodoro-mfs.ino`).

The EEPROM is modelled as a total map from `Int` addresses to byte
values (represented as `Nat`); the firmware addresses cells with C
`int` arithmetic, which this mirrors.  Loops that read the EEPROM are
translated as structural recursions over an explicit iteration count;
loops that only store a constant are translated by their pointwise
effect, which is identical because no iteration observes another's
write.  C `%` on possibly-signed operands is `Int.tmod` (truncation
toward zero), exactly the C semantics.  The `float` multiplier in the
statistics engine is modelled by the exact rational it denotes, and
the C `(int)` conversion of the (always non-negative) products by the
floor function.
-/

namespace RunUp

set_option maxRecDepth 40000

/-- EEPROM contents: a byte value for every `int` address. -/
abbrev Log := Int → Nat

/-- EMPTY_VALUE (0xFF): an EEPROM cell that was never written. -/
def EMPTY_VALUE : Nat := 0xFF

/-- SPRINTS_END_BYTE (0xED): the end-of-data marker byte. -/
def SPRINTS_END_BYTE : Nat := 0xED

/-- EEPROM.update: store byte `v` at address `a`. -/
def writeCell (e : Log) (a : Int) (v : Nat) : Log :=
  fun x => if x = a then v else e x

/-! ### Calendar module -/

/-- isLeapYear: Gregorian test as written in the source. -/
def isLeapYear (year : Nat) : Bool :=
  year % 4 == 0 && (year % 100 != 0 || year % 400 == 0)

/-- Month-length table `dim` used by `getDaysInMonth` and `getCurrentDate`. -/
def daysInMonthTable : List Nat := [31, 28, 31, 30, 31, 30, 31, 31, 30, 31, 30, 31]

/-- getDaysInMonth: 29 for a leap February, else the table entry. -/
def getDaysInMonth (year : Nat) (month : Nat) : Nat :=
  if month = 2 ∧ isLeapYear year then 29 else daysInMonthTable.getD (month - 1) 0

/-- Day-of-year computation performed by `getCurrentDate`: the day of the
month plus the lengths of all previous months, plus one when a leap year's
February has passed. -/
def dateToDayOfYear (year month day : Nat) : Nat :=
  let base := day + (daysInMonthTable.take (month - 1)).sum
  if 2 < month ∧ isLeapYear year then base + 1 else base

/-- The `while (day > getDaysInMonth(year, month))` loop of
`getDateFromDayOfYear`, with an explicit iteration bound.  For any day of
year of the resolved year the source loop runs at most 11 times, so a
bound of 12 reproduces it exactly. -/
def dayMonthLoop (year : Nat) : Nat → Nat → Nat → Nat × Nat
  | 0, day, month => (day, month)
  | fuel + 1, day, month =>
    if getDaysInMonth year month < day then
      dayMonthLoop year fuel (day - getDaysInMonth year month) (month + 1)
    else (day, month)

/-- getDateFromDayOfYear: resolve the year (current year when the input
does not exceed the current day of year, else the previous year), then
walk month lengths.  Returns the `(day, month)` pair that the source
formats onto the display. -/
def getDateFromDayOfYear (currentYear currentDayOfYear input : Nat) : Nat × Nat :=
  let year := if input ≤ currentDayOfYear then currentYear else currentYear - 1
  dayMonthLoop year 12 input 1

/-! ### Persistent counter log -/

/-- validateNextDayCell: reads the cell two ahead of the current day; a
non-empty value outside the valid count range 0..57 is fault 3
(uncleared log). Returns the resulting error code. -/
def validateNextDayCell (errorCode : Nat) (e : Log) (currentDayOfYear : Int) : Nat :=
  let nextValue := e (currentDayOfYear + 2)
  if errorCode = 0 ∧ nextValue ≠ EMPTY_VALUE then
    if 0 ≤ nextValue ∧ nextValue < 58 then errorCode else 3
  else errorCode

/-- The `for (int address = 2; address <= 367; address++)` scan of
`saveSprint` (and of `setDateTime`) that erases every SPRINTS_END_BYTE
except the one at address `keep`; `n` iterations starting at address `a`. -/
def clearEndBytes (keep : Int) : Nat → Int → Log → Log
  | 0, _, e => e
  | n + 1, a, e =>
    clearEndBytes keep n (a + 1)
      (if e a = SPRINTS_END_BYTE ∧ a ≠ keep then writeCell e a EMPTY_VALUE else e)

/-- The `for (int address = 2; address <= 367; address++)` scan of `setup`
that records `address - 1` for the last address holding SPRINTS_END_BYTE. -/
def latestSavedScan (e : Log) : Nat → Int → Int → Int
  | 0, _, acc => acc
  | n + 1, a, acc =>
    latestSavedScan e n (a + 1) (if e a = SPRINTS_END_BYTE then a - 1 else acc)

/-- latestSavedDayOfYear as computed in `setup`: scan addresses 2..367. -/
def latestSavedDayOfYear (e : Log) : Int := latestSavedScan e 366 2 0

/-- A `for (i = lo; i <= hi; i++) EEPROM.update(i, 0)` fill; each iteration
stores the constant 0, so the loop equals its pointwise effect. -/
def fillZeros (e : Log) (lo hi : Int) : Log :=
  fun a => if lo ≤ a ∧ a ≤ hi then 0 else e a

/-- saveSprint: refresh the calendar (`rtcOk`/`newDayOfYear` model the
outcome of `getCurrentDate`; `initialDayOfYear` is the value captured
before the refresh), validate the lookahead cell, and if no error was
raised write the counter (reset to 1 on a day change), erase stray end
markers from 2..367, and write the end marker after today.  `none` models
the error path, in which nothing is written. -/
def saveSprint (rtcOk : Bool) (newDayOfYear : Int) (e : Log)
    (initialDayOfYear : Int) (sprintCounter : Nat) : Option (Log × Nat) :=
  if rtcOk then
    if validateNextDayCell 0 e newDayOfYear = 0 then
      let c := if newDayOfYear = initialDayOfYear then sprintCounter else 1
      let e1 := writeCell e newDayOfYear c
      let e2 := clearEndBytes (newDayOfYear + 1) 366 2 e1
      let e3 := writeCell e2 (newDayOfYear + 1) SPRINTS_END_BYTE
      some (e3, c)
    else none
  else none

/-- Days in the year before `year`, as computed in `setup` and in
`getStatisticsByPeriod`. -/
def daysInPrevYear (year : Nat) : Int :=
  if isLeapYear (year - 1) then 366 else 365

/-- The boot reconciliation block of `setup` (run when no boot error was
raised): if today's cell holds a count and tomorrow holds the end marker,
adopt the stored counter; otherwise locate the latest saved day from the
single end marker, zero-fill the gap (splitting across New Year when the
marker is ahead of today), and re-seat the end marker after today.
Returns the repaired log and the running `sprintCounter` (0 unless the
stored counter was adopted). -/
def reconcileOnBoot (e : Log) (today : Int) (year : Nat) : Log × Nat :=
  let saved := e today
  if saved ≠ EMPTY_VALUE ∧ saved ≠ SPRINTS_END_BYTE ∧ e (today + 1) = SPRINTS_END_BYTE then
    (e, saved)
  else
    let latest := latestSavedDayOfYear e
    let skipped : Int := today - latest
    let e1 :=
      if skipped < 0 ∧ 0 < latest then
        fillZeros (fillZeros e (latest + 1) (daysInPrevYear year)) 1 today
      else if 0 < skipped ∧ 0 < latest then
        fillZeros e (latest + 1) (latest + skipped)
      else e
    let e2 :=
      if skipped ≠ 0 ∧ 0 < latest then writeCell e1 (today + 1) SPRINTS_END_BYTE else e1
    (e2, 0)

/-! ### Statistics engine -/

/-- CountedDoW enumerator FIVE_DAYS. -/
def FIVE_DAYS : Nat := 0

/-- CountedDoW enumerator SIX_DAYS. -/
def SIX_DAYS : Nat := 1

/-- CountedDoW enumerator SEVEN_DAYS. -/
def SEVEN_DAYS : Nat := 2

/-- CountedDoW enumerator NOT_0_DAYS. -/
def NOT_0_DAYS : Nat := 3

/-- Running accumulators of `getStatisticsByPeriod`. -/
structure AggState where
  totalSprints : Int
  totalDays : Int
  maximum : Int
  minimum : Int
deriving DecidableEq

/-- Initial accumulators: `totalSprints = 0, totalDays = 0, maximum = 0,
minimum = 100`. -/
def aggInitState : AggState := ⟨0, 0, 0, 100⟩

/-- Cell index and day-of-week resolved for one loop day of
`getStatisticsByPeriod`: days before day 1 wrap into the previous year's
tail and use the previous year's January-1 day of week. -/
def statIdxDow (startDow prevStartDow daysInPreviousYear day : Int) : Int × Int :=
  if 1 ≤ day then
    let dow := (startDow + (day - 1)).tmod 7
    (day, if dow = 0 then 7 else dow)
  else
    let mappedDay := day + daysInPreviousYear
    let dow := (prevStartDow + (mappedDay - 1)).tmod 7
    (mappedDay, if dow = 0 then 7 else dow)

/-- Loop body of `getStatisticsByPeriod`: read the resolved cell, skip
empty cells, the end marker, zero days under NOT_0_DAYS, and filtered
days of week; otherwise accumulate. -/
def aggStep (countingDoWs : Nat) (e : Log) (idx dow : Int) (s : AggState) : AggState :=
  let sc := e idx
  if sc = EMPTY_VALUE then s
  else if sc = SPRINTS_END_BYTE then s
  else if countingDoWs = NOT_0_DAYS ∧ sc = 0 then s
  else if (countingDoWs = FIVE_DAYS ∧ 6 ≤ dow) ∨ (countingDoWs = SIX_DAYS ∧ dow = 7) then s
  else
    { totalSprints := s.totalSprints + sc
      totalDays := s.totalDays + 1
      maximum := if s.maximum < (sc : Int) then (sc : Int) else s.maximum
      minimum := if (sc : Int) < s.minimum then (sc : Int) else s.minimum }

/-- The `for (int day = startDay; day <= endDay; day++)` loop of
`getStatisticsByPeriod`, with the iteration count made explicit. -/
def aggLoop (countingDoWs : Nat) (e : Log)
    (startDow prevStartDow daysInPreviousYear : Int) : Nat → Int → AggState → AggState
  | 0, _, s => s
  | n + 1, day, s =>
    let p := statIdxDow startDow prevStartDow daysInPreviousYear day
    aggLoop countingDoWs e startDow prevStartDow daysInPreviousYear n (day + 1)
      (aggStep countingDoWs e p.1 p.2 s)

/-- Day of week of January 1 of the previous year, as computed in
`getStatisticsByPeriod` from this year's January-1 day of week. -/
def prevYearStartDow (startDow daysInPreviousYear : Int) : Int :=
  let d := (startDow - daysInPreviousYear.tmod 7 + 7).tmod 7
  if d = 0 then 7 else d

/-- Final storage step of `getStatisticsByPeriod`: apply the unit
multiplier (the exact value of the C `float` constant, 104/25 for hours,
10 for sprints) and the C `(int)` truncation (floor, the quantities being
non-negative); all four metrics are 0 when no day matched. -/
def statsStore (countingUnits : Nat) (s : AggState) : Int × Int × Int × Int :=
  let multiplier : ℚ := if countingUnits = 1 then 104 / 25 else 10
  if 0 < s.totalDays then
    (⌊multiplier * (s.totalSprints : ℚ)⌋,
     ⌊multiplier * (s.minimum : ℚ)⌋,
     ⌊multiplier * ((s.totalSprints : ℚ) / (s.totalDays : ℚ))⌋,
     ⌊multiplier * (s.maximum : ℚ)⌋)
  else (0, 0, 0, 0)

/-- getStatisticsByPeriod: aggregate the window `startDay..endDay` and
store the (TOTAL, MINIMUM, AVERAGE, MAXIMUM) row values. -/
def getStatisticsByPeriod (countingDoWs countingUnits : Nat) (e : Log)
    (startDay endDay startDow : Int) (year : Nat) : Int × Int × Int × Int :=
  let daysInPreviousYear := daysInPrevYear year
  let prevStartDow := prevYearStartDow startDow daysInPreviousYear
  statsStore countingUnits
    (aggLoop countingDoWs e startDow prevStartDow daysInPreviousYear
      (endDay + 1 - startDay).toNat startDay aggInitState)

/-- Modelled from the spec: the naive re-scan the spec compares the
rolling-window aggregation against — visit exactly the cells
`day, day+1, ...` of one stored year region (`n` of them), derive each
day of week from that year's January-1 day of week `jan1Dow`, and apply
the same inclusion filter and accumulators. -/
def naiveScan (countingDoWs : Nat) (e : Log) (jan1Dow : Int) : Nat → Int → AggState → AggState
  | 0, _, s => s
  | n + 1, day, s =>
    let dow0 := (jan1Dow + (day - 1)).tmod 7
    let dow := if dow0 = 0 then 7 else dow0
    naiveScan countingDoWs e jan1Dow n (day + 1) (aggStep countingDoWs e day dow s)

/-! ### Sprint scheduler -/

/-- Transient countdown state of the sprint scheduler. -/
structure TimerState where
  currentInterval : Nat
  minutes : Int
  seconds : Int
  tenths : Nat
  sprintCounter : Nat
deriving DecidableEq

/-- setInterval: load `value` minutes; under hero mode a break interval
is collapsed to one nominal second.  Returns the new
`(currentInterval, minutes, seconds)`. -/
def setIntervalVals (heroModeEnabled : Bool) (value : Nat) : Nat × Int × Int :=
  if heroModeEnabled ∧ (value = 5 ∨ value = 15) then (value, 0, 1)
  else (value, (value : Int), 0)

/-- One counting tick of `loop` (the countdown branch of the COUNTING
state): advance tenths; on a full second decrement the countdown; on
reaching 00:00 either finish the work interval (increment the counter,
run `saveSprint`, then pick the long break when the counter — as left by
`saveSprint` — is divisible by 4, else the short break) or finish a break
(back to the 25-minute work interval).  `curDayOfYear` is the global
`currentDayOfYear` before the tick and `rtcOk`/`newDayOfYear` the outcome
of the calendar refresh inside `saveSprint`. -/
def countingTick (heroModeEnabled rtcOk : Bool) (newDayOfYear curDayOfYear : Int)
    (e : Log) (s : TimerState) : TimerState × Log :=
  let tenths' := s.tenths + 1
  if tenths' = 10 then
    let s1 : TimerState := { s with tenths := 0, seconds := s.seconds - 1 }
    let s2 : TimerState :=
      if s1.seconds < 0 ∧ 0 < s1.minutes then
        { s1 with seconds := 59, minutes := s1.minutes - 1 }
      else s1
    if s2.minutes = 0 ∧ s2.seconds = 0 then
      if s2.currentInterval = 25 then
        let iv0 := setIntervalVals heroModeEnabled 0
        let s3 : TimerState :=
          { s2 with currentInterval := iv0.1, minutes := iv0.2.1, seconds := iv0.2.2,
                    sprintCounter := s2.sprintCounter + 1 }
        match saveSprint rtcOk newDayOfYear e curDayOfYear s3.sprintCounter with
        | some (e', c) =>
          let iv1 := setIntervalVals heroModeEnabled (if c % 4 = 0 then 15 else 5)
          ({ s3 with sprintCounter := c, currentInterval := iv1.1,
                     minutes := iv1.2.1, seconds := iv1.2.2 }, e')
        | none =>
          let iv1 := setIntervalVals heroModeEnabled (if s3.sprintCounter % 4 = 0 then 15 else 5)
          ({ s3 with currentInterval := iv1.1, minutes := iv1.2.1, seconds := iv1.2.2 }, e)
      else if s2.currentInterval = 15 ∨ s2.currentInterval = 5 then
        let iv1 := setIntervalVals heroModeEnabled 25
        ({ s2 with currentInterval := iv1.1, minutes := iv1.2.1, seconds := iv1.2.2 }, e)
      else (s2, e)
    else (s2, e)
  else ({ s with tenths := tenths' }, e)

/-! ### Concrete logs used in examples -/

/-- A factory-fresh EEPROM: every cell EMPTY. -/
def eAllEmpty : Log := fun _ => EMPTY_VALUE

/-- Log with day 100 = 3 and the end marker at 101, all else EMPTY. -/
def eDay100 : Log :=
  fun a => if a = 100 then 3 else if a = 101 then SPRINTS_END_BYTE else EMPTY_VALUE

/-- Log whose only non-empty cell is a stray end marker at address 1. -/
def eStrayOne : Log :=
  fun a => if a = 1 then SPRINTS_END_BYTE else EMPTY_VALUE

/-- Log whose lookahead cell 3 holds the valid count 5, all else EMPTY. -/
def eLookaheadCount : Log :=
  fun a => if a = 3 then 5 else EMPTY_VALUE

/-- Log holding the week of counts [2,0,0,5,0,0,3] in cells 1..7. -/
def eWeekCounts : Log :=
  fun a =>
    if a = 1 then 2 else if a = 2 then 0 else if a = 3 then 0 else
    if a = 4 then 5 else if a = 5 then 0 else if a = 6 then 0 else
    if a = 7 then 3 else EMPTY_VALUE

/-! ### Pointwise characterizations of the EEPROM loops -/

theorem writeCell_same (e : Log) (a : Int) (v : Nat) : writeCell e a v a = v := by
  simp [writeCell]

theorem writeCell_other (e : Log) (a : Int) (v : Nat) (x : Int) (h : x ≠ a) :
    writeCell e a v x = e x := by
  simp [writeCell, h]

theorem clearStep_other (keep : Int) (e : Log) (a x : Int) (hxa : x ≠ a) :
    (if e a = SPRINTS_END_BYTE ∧ a ≠ keep then writeCell e a EMPTY_VALUE else e) x = e x := by
  by_cases hc : e a = SPRINTS_END_BYTE ∧ a ≠ keep
  · rw [if_pos hc]; exact writeCell_other e a EMPTY_VALUE x hxa
  · rw [if_neg hc]

theorem clearEndBytes_out (keep : Int) :
    ∀ (n : Nat) (a : Int) (e : Log) (x : Int), x < a ∨ a + n ≤ x →
      clearEndBytes keep n a e x = e x := by
  intro n
  induction n with
  | zero => intro a e x _; rfl
  | succ n ih =>
    intro a e x hx
    have hxa : x ≠ a := by push_cast at hx; omega
    rw [clearEndBytes, ih (a + 1) _ x (by push_cast at hx ⊢; omega),
      clearStep_other keep e a x hxa]

theorem clearEndBytes_in (keep : Int) :
    ∀ (n : Nat) (a : Int) (e : Log) (x : Int), a ≤ x → x < a + n →
      clearEndBytes keep n a e x =
        if e x = SPRINTS_END_BYTE ∧ x ≠ keep then EMPTY_VALUE else e x := by
  intro n
  induction n with
  | zero => intro a e x h1 h2; push_cast at h2; omega
  | succ n ih =>
    intro a e x h1 h2
    rcases eq_or_lt_of_le h1 with rfl | hlt
    · rw [clearEndBytes,
        clearEndBytes_out keep n (a + 1) _ a (Or.inl (by omega))]
      by_cases hc : e a = SPRINTS_END_BYTE ∧ a ≠ keep
      · rw [if_pos hc, if_pos hc, writeCell_same]
      · rw [if_neg hc, if_neg hc]
    · have hxa : x ≠ a := by omega
      rw [clearEndBytes, ih (a + 1) _ x (by omega) (by push_cast at h2 ⊢; omega),
        clearStep_other keep e a x hxa]

theorem latestSavedScan_none (e : Log) :
    ∀ (n : Nat) (a acc : Int),
      (∀ x : Int, a ≤ x → x < a + n → e x ≠ SPRINTS_END_BYTE) →
      latestSavedScan e n a acc = acc := by
  intro n
  induction n with
  | zero => intro a acc _; rfl
  | succ n ih =>
    intro a acc h
    rw [latestSavedScan, if_neg (h a le_rfl (by push_cast; omega))]
    exact ih (a + 1) acc (fun x h1 h2 => h x (by omega) (by push_cast at h2 ⊢; omega))

theorem latestSavedScan_last (e : Log) :
    ∀ (n : Nat) (a acc m : Int), a ≤ m → m < a + n → e m = SPRINTS_END_BYTE →
      (∀ x : Int, m < x → x < a + n → e x ≠ SPRINTS_END_BYTE) →
      latestSavedScan e n a acc = m - 1 := by
  intro n
  induction n with
  | zero => intro a acc m h1 h2 _ _; push_cast at h2; omega
  | succ n ih =>
    intro a acc m h1 h2 hm hafter
    rcases eq_or_lt_of_le h1 with rfl | hlt
    · rw [latestSavedScan, if_pos hm]
      exact latestSavedScan_none e n (a + 1) (a - 1)
        (fun x hx1 hx2 => hafter x (by omega) (by push_cast at hx2 ⊢; omega))
    · rw [latestSavedScan]
      exact ih (a + 1) _ m (by omega) (by push_cast at h2 ⊢; omega) hm
        (fun x hx1 hx2 => hafter x hx1 (by push_cast at hx2 ⊢; omega))

/-! ### C4: the uncleared-log boundary fault -/

/-- C4 counterexample: with the lookahead cell `d+2` (day 1, cell 3)
holding the valid count 5 — a non-EMPTY byte — `validateNextDayCell`
raises no fault (the error code stays 0), contradicting the claim that
the fault is raised whenever the lookahead cell is not EMPTY. -/
theorem C4_counterexample :
    validateNextDayCell 0 eLookaheadCount 1 = 0 ∧
    eLookaheadCount (1 + 2) ≠ EMPTY_VALUE := by
  decide

/-- C4 (amended): `validateNextDayCell` raises the UnclearedLog fault
(errorCode 3) iff the lookahead cell `d+2` is occupied by a byte that is
neither EMPTY nor a valid count below 58; a non-EMPTY valid count is
accepted as overwritable old-cycle data and raises no fault. -/
theorem C4_validate_fault_iff (e : Log) (d : Int) :
    validateNextDayCell 0 e d = 3 ↔
      (e (d + 2) ≠ EMPTY_VALUE ∧ 58 ≤ e (d + 2)) := by
  simp only [validateNextDayCell, EMPTY_VALUE]
  split_ifs with h1 h2
  · constructor
    · intro h; exact h.elim
    · intro h; omega
  · constructor
    · intro _; exact ⟨h1.2, by omega⟩
    · intro _; rfl
  · constructor
    · intro h; exact h.elim
    · intro h; exact h.1 (by simpa using h1)

/-! ### saveSprint lemmas -/

theorem saveSprint_eq_same (e : Log) (d : Int) (n : Nat)
    (hv : validateNextDayCell 0 e d = 0) :
    saveSprint true d e d n =
      some (writeCell (clearEndBytes (d + 1) 366 2 (writeCell e d n)) (d + 1)
              SPRINTS_END_BYTE, n) := by
  simp [saveSprint, hv]

theorem saveSprint_eq_new (e : Log) (d init : Int) (n : Nat)
    (hd : d ≠ init) (hv : validateNextDayCell 0 e d = 0) :
    saveSprint true d e init n =
      some (writeCell (clearEndBytes (d + 1) 366 2 (writeCell e d 1)) (d + 1)
              SPRINTS_END_BYTE, 1) := by
  simp [saveSprint, hv, hd]

theorem saveSprint_cell_day (e : Log) (d : Int) (c : Nat)
    (hd1 : 1 ≤ d) (hd2 : d ≤ 366) (hc : c ≠ SPRINTS_END_BYTE) :
    writeCell (clearEndBytes (d + 1) 366 2 (writeCell e d c)) (d + 1) SPRINTS_END_BYTE d
      = c := by
  rw [writeCell_other _ _ _ _ (by omega)]
  rcases lt_or_le d 2 with h | h
  · rw [clearEndBytes_out _ _ _ _ _ (Or.inl h)]
    exact writeCell_same e d c
  · rw [clearEndBytes_in (d + 1) 366 2 (writeCell e d c) d h (by push_cast; omega),
      writeCell_same, if_neg (fun hh => hc hh.1)]

theorem saveSprint_marker_unique (e : Log) (d : Int) (c : Nat) :
    ∀ a : Int, 2 ≤ a → a ≤ 367 →
      (writeCell (clearEndBytes (d + 1) 366 2 (writeCell e d c)) (d + 1) SPRINTS_END_BYTE a
        = SPRINTS_END_BYTE ↔ a = d + 1) := by
  intro a h2 h367
  by_cases had : a = d + 1
  · subst had
    rw [writeCell_same]
    simp
  · rw [writeCell_other _ _ _ _ had,
      clearEndBytes_in (d + 1) 366 2 (writeCell e d c) a h2 (by push_cast; omega)]
    constructor
    · intro hEnd
      by_cases hcnd : writeCell e d c a = SPRINTS_END_BYTE ∧ a ≠ d + 1
      · rw [if_pos hcnd] at hEnd
        exact absurd hEnd (by decide)
      · rw [if_neg hcnd] at hEnd
        exact (hcnd ⟨hEnd, had⟩).elim
    · intro h
      exact absurd h had

theorem saveSprint_cell_one (e : Log) (d : Int) (c : Nat)
    (hd1 : 1 ≤ d) (hc : c ≠ SPRINTS_END_BYTE) (h1 : e 1 ≠ SPRINTS_END_BYTE) :
    writeCell (clearEndBytes (d + 1) 366 2 (writeCell e d c)) (d + 1) SPRINTS_END_BYTE 1
      ≠ SPRINTS_END_BYTE := by
  rw [writeCell_other _ _ _ _ (by omega),
    clearEndBytes_out _ _ _ _ _ (Or.inl (by norm_num))]
  by_cases h1d : (1 : Int) = d
  · rw [show writeCell e d c 1 = c by simp [writeCell, h1d]]
    exact hc
  · rw [writeCell_other _ _ _ _ h1d]
    exact h1

/-! ### C1: saveSprint postcondition -/

/-- C1 counterexample: starting from a log whose only non-empty cell is a
stray end marker at address 1, an error-free `saveSprint` on day 5 with
counter 3 leaves end markers at cells 1 and 6, so the range [1,367] holds
two end markers, not exactly one at `d + 1`: the clearing pass never
visits address 1. -/
theorem C1_counterexample :
    ((saveSprint true 5 eStrayOne 5 3).map fun r => (r.1 1, r.1 6, r.2)) =
      some (SPRINTS_END_BYTE, SPRINTS_END_BYTE, 3) ∧ (1 : Int) ≠ 5 + 1 := by
  refine ⟨?_, by decide⟩
  rw [saveSprint_eq_same eStrayOne 5 3 (by decide)]
  have hA : writeCell (clearEndBytes (5 + 1) 366 2 (writeCell eStrayOne 5 3)) (5 + 1)
      SPRINTS_END_BYTE 1 = SPRINTS_END_BYTE := by
    rw [writeCell_other _ _ _ _ (by decide),
      clearEndBytes_out _ _ _ _ _ (Or.inl (by decide)),
      writeCell_other _ _ _ _ (by decide)]
    decide
  have hB : writeCell (clearEndBytes (5 + 1) 366 2 (writeCell eStrayOne 5 3)) (5 + 1)
      SPRINTS_END_BYTE 6 = SPRINTS_END_BYTE := writeCell_same _ _ _
  simp only [Option.map_some', hA, hB]

/-- C1 (amended): after an error-free same-day `saveSprint` of count `n`
on day `d`, reading cell `d` yields `n`; the operation writes the count,
then clears stray end markers over addresses 2..367 — not 1..367 — and
then writes the marker at `d+1`, so the marker at `d+1` is the unique one
in [2,367]; uniqueness over the claimed range [1,367] additionally needs
cell 1 not to have held a stray marker beforehand (the firmware itself
never writes the marker below address 2). -/
theorem C1_saveSprint_postcondition (e : Log) (d : Int) (n : Nat)
    (hd1 : 1 ≤ d) (hd2 : d ≤ 366) (hn : n ≤ 57)
    (hv : validateNextDayCell 0 e d = 0) :
    ∃ e', saveSprint true d e d n = some (e', n) ∧
      e' d = n ∧
      (∀ a : Int, 2 ≤ a → a ≤ 367 → (e' a = SPRINTS_END_BYTE ↔ a = d + 1)) ∧
      (e 1 ≠ SPRINTS_END_BYTE →
        ∀ a : Int, 1 ≤ a → a ≤ 367 → (e' a = SPRINTS_END_BYTE ↔ a = d + 1)) := by
  have hc : n ≠ SPRINTS_END_BYTE := by simp only [SPRINTS_END_BYTE]; omega
  refine ⟨_, saveSprint_eq_same e d n hv,
    saveSprint_cell_day e d n hd1 hd2 hc, saveSprint_marker_unique e d n, ?_⟩
  intro h1e a ha1 ha367
  rcases lt_or_le a 2 with h | h
  · have ha : a = 1 := by omega
    subst ha
    constructor
    · intro hEnd
      exact absurd hEnd (saveSprint_cell_one e d n hd1 hc h1e)
    · intro hEq
      omega
  · exact saveSprint_marker_unique e d n a h ha367

/-- C1 witness: the amended postcondition holds concretely for an
error-free save of count 3 on day 5 of an all-empty log. -/
theorem C1_saveSprint_postcondition_witness :
    (1 ≤ (5 : Int) ∧ (5 : Int) ≤ 366 ∧ (3 : Nat) ≤ 57 ∧
      validateNextDayCell 0 eAllEmpty 5 = 0) ∧
    (∃ e', saveSprint true 5 eAllEmpty 5 3 = some (e', 3) ∧
      e' 5 = 3 ∧
      (∀ a : Int, 2 ≤ a → a ≤ 367 → (e' a = SPRINTS_END_BYTE ↔ a = 5 + 1)) ∧
      (eAllEmpty 1 ≠ SPRINTS_END_BYTE →
        ∀ a : Int, 1 ≤ a → a ≤ 367 → (e' a = SPRINTS_END_BYTE ↔ a = 5 + 1))) :=
  ⟨⟨by decide, by decide, by decide, by decide⟩,
   C1_saveSprint_postcondition eAllEmpty 5 3 (by decide) (by decide) (by decide) (by decide)⟩

/-! ### C10: the midnight crossing inside saveSprint -/

/-- C10: when the calendar refresh inside `saveSprint` yields a new day
of year different from the one captured before the refresh and no error
is raised, the value persisted for the new day is 1 — the running counter
is reset to 1 before the write — not the previous day's accumulated
counter. -/
theorem C10_midnight_reset (e : Log) (initialDay newDay : Int) (counter : Nat)
    (hneq : newDay ≠ initialDay) (hd1 : 1 ≤ newDay) (hd2 : newDay ≤ 366)
    (hv : validateNextDayCell 0 e newDay = 0) :
    ∃ e', saveSprint true newDay e initialDay counter = some (e', 1) ∧
      e' newDay = 1 := by
  refine ⟨_, saveSprint_eq_new e newDay initialDay counter hneq hv, ?_⟩
  exact saveSprint_cell_day e newDay 1 hd1 hd2 (by decide)

/-- C10 witness: a sprint completing on day 6 after accumulating
counter 12 on day 5 persists 1 into cell 6. -/
theorem C10_midnight_reset_witness :
    ((6 : Int) ≠ 5 ∧ 1 ≤ (6 : Int) ∧ (6 : Int) ≤ 366 ∧
      validateNextDayCell 0 eAllEmpty 6 = 0) ∧
    (∃ e', saveSprint true 6 eAllEmpty 5 12 = some (e', 1) ∧ e' 6 = 1) :=
  ⟨⟨by decide, by decide, by decide, by decide⟩,
   C10_midnight_reset eAllEmpty 5 6 12 (by decide) (by decide) (by decide) (by decide)⟩

/-! ### reconcileOnBoot lemmas -/

theorem reconcileOnBoot_auth {e : Log} {today : Int} {year : Nat}
    (hA : e today ≠ EMPTY_VALUE ∧ e today ≠ SPRINTS_END_BYTE ∧
      e (today + 1) = SPRINTS_END_BYTE) :
    reconcileOnBoot e today year = (e, e today) := by
  simp only [reconcileOnBoot]
  rw [if_pos hA]

theorem reconcileOnBoot_noLatest {e : Log} {today : Int} {year : Nat}
    (hA : ¬(e today ≠ EMPTY_VALUE ∧ e today ≠ SPRINTS_END_BYTE ∧
      e (today + 1) = SPRINTS_END_BYTE))
    (hp : latestSavedDayOfYear e ≤ 0) :
    reconcileOnBoot e today year = (e, 0) := by
  simp only [reconcileOnBoot]
  rw [if_neg hA, if_neg (by omega : ¬(today - latestSavedDayOfYear e < 0 ∧
        0 < latestSavedDayOfYear e)),
    if_neg (by omega : ¬(0 < today - latestSavedDayOfYear e ∧ 0 < latestSavedDayOfYear e)),
    if_neg (by omega : ¬(today - latestSavedDayOfYear e ≠ 0 ∧ 0 < latestSavedDayOfYear e))]

theorem reconcileOnBoot_zeroSkip {e : Log} {today : Int} {year : Nat}
    (hA : ¬(e today ≠ EMPTY_VALUE ∧ e today ≠ SPRINTS_END_BYTE ∧
      e (today + 1) = SPRINTS_END_BYTE))
    (hz : today - latestSavedDayOfYear e = 0) :
    reconcileOnBoot e today year = (e, 0) := by
  simp only [reconcileOnBoot]
  rw [if_neg hA, if_neg (by omega : ¬(today - latestSavedDayOfYear e < 0 ∧
        0 < latestSavedDayOfYear e)),
    if_neg (by omega : ¬(0 < today - latestSavedDayOfYear e ∧ 0 < latestSavedDayOfYear e)),
    if_neg (by omega : ¬(today - latestSavedDayOfYear e ≠ 0 ∧ 0 < latestSavedDayOfYear e))]

theorem reconcileOnBoot_pos {e : Log} {today : Int} {year : Nat}
    (hA : ¬(e today ≠ EMPTY_VALUE ∧ e today ≠ SPRINTS_END_BYTE ∧
      e (today + 1) = SPRINTS_END_BYTE))
    (hp : 0 < latestSavedDayOfYear e) (hs : 0 < today - latestSavedDayOfYear e) :
    reconcileOnBoot e today year =
      (writeCell (fillZeros e (latestSavedDayOfYear e + 1)
          (latestSavedDayOfYear e + (today - latestSavedDayOfYear e)))
        (today + 1) SPRINTS_END_BYTE, 0) := by
  simp only [reconcileOnBoot]
  rw [if_neg hA, if_neg (by omega : ¬(today - latestSavedDayOfYear e < 0 ∧
        0 < latestSavedDayOfYear e)),
    if_pos (show 0 < today - latestSavedDayOfYear e ∧ 0 < latestSavedDayOfYear e
      from ⟨hs, hp⟩),
    if_pos (show today - latestSavedDayOfYear e ≠ 0 ∧ 0 < latestSavedDayOfYear e
      from ⟨by omega, hp⟩)]

theorem reconcileOnBoot_neg {e : Log} {today : Int} {year : Nat}
    (hA : ¬(e today ≠ EMPTY_VALUE ∧ e today ≠ SPRINTS_END_BYTE ∧
      e (today + 1) = SPRINTS_END_BYTE))
    (hp : 0 < latestSavedDayOfYear e) (hs : today - latestSavedDayOfYear e < 0) :
    reconcileOnBoot e today year =
      (writeCell (fillZeros (fillZeros e (latestSavedDayOfYear e + 1) (daysInPrevYear year))
          1 today) (today + 1) SPRINTS_END_BYTE, 0) := by
  simp only [reconcileOnBoot]
  rw [if_neg hA,
    if_pos (show today - latestSavedDayOfYear e < 0 ∧ 0 < latestSavedDayOfYear e
      from ⟨hs, hp⟩),
    if_pos (show today - latestSavedDayOfYear e ≠ 0 ∧ 0 < latestSavedDayOfYear e
      from ⟨by omega, hp⟩)]

theorem latestSavedDayOfYear_single (e : Log) (L : Int)
    (hL2 : 2 ≤ L + 1) (hL367 : L + 1 ≤ 367)
    (hmark : e (L + 1) = SPRINTS_END_BYTE)
    (hafter : ∀ x : Int, L + 1 < x → x ≤ 367 → e x ≠ SPRINTS_END_BYTE) :
    latestSavedDayOfYear e = L := by
  have h := latestSavedScan_last e 366 2 0 (L + 1) hL2 (by push_cast; omega) hmark
    (fun x hx1 hx2 => hafter x hx1 (by push_cast at hx2; omega))
  rw [latestSavedDayOfYear, h]
  omega

/-! ### C2: the boot reconciliation example -/

/-- C2: with day 100 = 3 and the end marker at 101, booting on calendar
day 103 (any year) zero-fills days 101, 102 and 103, writes the end
marker at 104, leaves day 100 untouched, and the running sprint counter
after boot is 0. -/
theorem C2_boot_example (year : Nat) :
    (reconcileOnBoot eDay100 103 year).2 = 0 ∧
    (reconcileOnBoot eDay100 103 year).1 100 = 3 ∧
    (reconcileOnBoot eDay100 103 year).1 101 = 0 ∧
    (reconcileOnBoot eDay100 103 year).1 102 = 0 ∧
    (reconcileOnBoot eDay100 103 year).1 103 = 0 ∧
    (reconcileOnBoot eDay100 103 year).1 104 = SPRINTS_END_BYTE := by
  have hl : latestSavedDayOfYear eDay100 = 100 := by decide
  have hA : ¬(eDay100 103 ≠ EMPTY_VALUE ∧ eDay100 103 ≠ SPRINTS_END_BYTE ∧
      eDay100 (103 + 1) = SPRINTS_END_BYTE) := by decide
  have hre := @reconcileOnBoot_pos eDay100 103 year hA
    (by rw [hl]; decide) (by rw [hl]; decide)
  rw [hl] at hre
  rw [hre]
  refine ⟨rfl, ?_, ?_, ?_, ?_, ?_⟩ <;> decide

/-! ### C3: the shape of the zero-filled gap -/

/-- C3 counterexample: with the single end marker at 101
(`latestSavedDay` = 100) and `today` = 103, the boot reconciliation
zero-fills cell 103 — the cell for `today` itself, which was EMPTY and is
not strictly between 100 and 103 — so the fill is not limited to the days
strictly between `latestSavedDay` and `today`. -/
theorem C3_counterexample :
    (reconcileOnBoot eDay100 103 2026).1 103 = 0 ∧
    eDay100 103 = EMPTY_VALUE ∧
    ¬((100 : Int) < 103 ∧ (103 : Int) < 103) := by
  decide

/-- C3 (amended): with a single end marker locating `latestSavedDay` = L
and a later boot day `today`, the reconciliation zero-fills exactly the
days L+1 .. today — including `today` itself, not only the days strictly
between — writes the end marker at `today + 1`, and changes no cell
outside L+1 .. today+1. -/
theorem C3_fill_range (e : Log) (L today : Int) (year : Nat)
    (hsingle : ∀ x : Int, 2 ≤ x → x ≤ 367 → (e x = SPRINTS_END_BYTE ↔ x = L + 1))
    (hL : 1 ≤ L) (hLr : L + 1 ≤ 367) (hlt : L < today) (ht : today ≤ 366) :
    (∀ x : Int, L + 1 ≤ x → x ≤ today → (reconcileOnBoot e today year).1 x = 0) ∧
    (reconcileOnBoot e today year).1 (today + 1) = SPRINTS_END_BYTE ∧
    (∀ x : Int, x < L + 1 ∨ today + 1 < x → (reconcileOnBoot e today year).1 x = e x) := by
  have hlat : latestSavedDayOfYear e = L :=
    latestSavedDayOfYear_single e L (by omega) hLr
      ((hsingle (L + 1) (by omega) hLr).mpr rfl)
      (fun x hx1 hx2 hEnd => by
        have := (hsingle x (by omega) hx2).mp hEnd
        omega)
  have hA : ¬(e today ≠ EMPTY_VALUE ∧ e today ≠ SPRINTS_END_BYTE ∧
      e (today + 1) = SPRINTS_END_BYTE) := by
    intro hcon
    have := (hsingle (today + 1) (by omega) (by omega)).mp hcon.2.2
    omega
  have hre := @reconcileOnBoot_pos e today year hA (by rw [hlat]; omega)
    (by rw [hlat]; omega)
  rw [hlat] at hre
  refine ⟨?_, ?_, ?_⟩
  · intro x hx1 hx2
    rw [hre]
    show writeCell (fillZeros e (L + 1) (L + (today - L))) (today + 1) SPRINTS_END_BYTE x = 0
    rw [writeCell_other _ _ _ _ (by omega)]
    simp only [fillZeros]
    rw [if_pos ⟨hx1, by omega⟩]
  · rw [hre]
    exact writeCell_same _ _ _
  · intro x hx
    rw [hre]
    show writeCell (fillZeros e (L + 1) (L + (today - L))) (today + 1) SPRINTS_END_BYTE x = e x
    rw [writeCell_other _ _ _ _ (by omega)]
    simp only [fillZeros]
    rw [if_neg (by omega)]

/-- C3 witness: the amended fill shape holds concretely for the day-100
log booted on day 103. -/
theorem C3_fill_range_witness :
    ((∀ x : Int, 2 ≤ x → x ≤ 367 → (eDay100 x = SPRINTS_END_BYTE ↔ x = 100 + 1)) ∧
      1 ≤ (100 : Int) ∧ (100 : Int) + 1 ≤ 367 ∧ (100 : Int) < 103 ∧ (103 : Int) ≤ 366) ∧
    ((∀ x : Int, 100 + 1 ≤ x → x ≤ 103 → (reconcileOnBoot eDay100 103 2027).1 x = 0) ∧
      (reconcileOnBoot eDay100 103 2027).1 (103 + 1) = SPRINTS_END_BYTE ∧
      (∀ x : Int, x < 100 + 1 ∨ 103 + 1 < x →
        (reconcileOnBoot eDay100 103 2027).1 x = eDay100 x)) :=
  ⟨⟨by decide, by decide, by decide, by decide, by decide⟩,
   C3_fill_range eDay100 100 103 2027 (by decide) (by decide) (by decide) (by decide)
     (by decide)⟩

/-! ### C5: idempotence of the boot reconciliation -/

theorem reconcileOnBoot_fst_cases (e : Log) (today : Int) (year : Nat)
    (h1 : 1 ≤ today) :
    (reconcileOnBoot e today year).1 = e ∨
      ((reconcileOnBoot e today year).1 today = 0 ∧
       (reconcileOnBoot e today year).1 (today + 1) = SPRINTS_END_BYTE) := by
  by_cases hA : e today ≠ EMPTY_VALUE ∧ e today ≠ SPRINTS_END_BYTE ∧
      e (today + 1) = SPRINTS_END_BYTE
  · left
    rw [reconcileOnBoot_auth hA]
  · by_cases hp : 0 < latestSavedDayOfYear e
    · rcases lt_trichotomy (today - latestSavedDayOfYear e) 0 with hs | hz | hs
      · right
        rw [reconcileOnBoot_neg hA hp hs]
        constructor
        · show writeCell (fillZeros (fillZeros e (latestSavedDayOfYear e + 1)
              (daysInPrevYear year)) 1 today) (today + 1) SPRINTS_END_BYTE today = 0
          rw [writeCell_other _ _ _ _ (by omega)]
          simp only [fillZeros]
          rw [if_pos ⟨h1, le_refl today⟩]
        · exact writeCell_same _ _ _
      · left
        rw [reconcileOnBoot_zeroSkip hA hz]
      · right
        rw [reconcileOnBoot_pos hA hp hs]
        constructor
        · show writeCell (fillZeros e (latestSavedDayOfYear e + 1)
              (latestSavedDayOfYear e + (today - latestSavedDayOfYear e)))
            (today + 1) SPRINTS_END_BYTE today = 0
          rw [writeCell_other _ _ _ _ (by omega)]
          simp only [fillZeros]
          rw [if_pos ⟨by omega, by omega⟩]
        · exact writeCell_same _ _ _
    · left
      rw [reconcileOnBoot_noLatest hA (by omega)]

/-- C5: for every log state and every boot day in [1,366], running the
boot reconciliation twice in a row with no intervening write leaves the
log exactly as after the first run — the second run changes nothing. -/
theorem C5_reconcile_idempotent (e : Log) (today : Int) (year : Nat)
    (h1 : 1 ≤ today) (h2 : today ≤ 366) :
    (reconcileOnBoot ((reconcileOnBoot e today year).1) today year).1 =
      (reconcileOnBoot e today year).1 := by
  rcases reconcileOnBoot_fst_cases e today year h1 with hsame | ⟨h0, hM⟩
  · rw [hsame]
    exact hsame
  · have hA : (reconcileOnBoot e today year).1 today ≠ EMPTY_VALUE ∧
        (reconcileOnBoot e today year).1 today ≠ SPRINTS_END_BYTE ∧
        (reconcileOnBoot e today year).1 (today + 1) = SPRINTS_END_BYTE := by
      rw [h0]
      exact ⟨by decide, by decide, hM⟩
    rw [reconcileOnBoot_auth hA]

/-- C5 witness: idempotence holds concretely for the day-100 log booted
on day 103. -/
theorem C5_reconcile_idempotent_witness :
    (1 ≤ (103 : Int) ∧ (103 : Int) ≤ 366) ∧
    (reconcileOnBoot ((reconcileOnBoot eDay100 103 2026).1) 103 2026).1 =
      (reconcileOnBoot eDay100 103 2026).1 :=
  ⟨⟨by decide, by decide⟩,
   C5_reconcile_idempotent eDay100 103 2026 (by decide) (by decide)⟩

/-! ### C6: calendar lemmas -/

theorem getDaysInMonth_le_31 (y m : Nat) : getDaysInMonth y m ≤ 31 := by
  rw [getDaysInMonth]
  split
  · omega
  · have h : ∀ i, daysInMonthTable.getD i 0 ≤ 31 := by
      intro i
      rcases i with _|_|_|_|_|_|_|_|_|_|_|_|i <;> simp [daysInMonthTable, List.getD]
    exact h (m - 1)

theorem getDaysInMonth_congr {y y' : Nat} (h : isLeapYear y = isLeapYear y') (m : Nat) :
    getDaysInMonth y m = getDaysInMonth y' m := by
  simp only [getDaysInMonth, h]

theorem dateToDayOfYear_congr {y y' : Nat} (h : isLeapYear y = isLeapYear y') (m d : Nat) :
    dateToDayOfYear y m d = dateToDayOfYear y' m d := by
  simp only [dateToDayOfYear, h]

theorem dayMonthLoop_congr {y y' : Nat} (h : isLeapYear y = isLeapYear y') :
    ∀ fuel day month, dayMonthLoop y fuel day month = dayMonthLoop y' fuel day month := by
  intro fuel
  induction fuel with
  | zero => intro day month; rfl
  | succ n ih =>
    intro day month
    rw [dayMonthLoop, dayMonthLoop, getDaysInMonth_congr h month]
    split
    · rw [ih]
    · rfl

theorem dayMonth_roundtrip_2024 : ∀ m : Fin 12, ∀ d : Fin 31,
    d.1 + 1 ≤ getDaysInMonth 2024 (m.1 + 1) →
    dayMonthLoop 2024 12 (dateToDayOfYear 2024 (m.1 + 1) (d.1 + 1)) 1 =
      (d.1 + 1, m.1 + 1) := by
  decide

theorem dayMonth_roundtrip_2025 : ∀ m : Fin 12, ∀ d : Fin 31,
    d.1 + 1 ≤ getDaysInMonth 2025 (m.1 + 1) →
    dayMonthLoop 2025 12 (dateToDayOfYear 2025 (m.1 + 1) (d.1 + 1)) 1 =
      (d.1 + 1, m.1 + 1) := by
  decide

theorem doy_roundtrip_2024 : ∀ doy : Fin 366,
    dateToDayOfYear 2024 (dayMonthLoop 2024 12 (doy.1 + 1) 1).2
      (dayMonthLoop 2024 12 (doy.1 + 1) 1).1 = doy.1 + 1 := by
  decide

theorem doy_roundtrip_2025 : ∀ doy : Fin 365,
    dateToDayOfYear 2025 (dayMonthLoop 2025 12 (doy.1 + 1) 1).2
      (dayMonthLoop 2025 12 (doy.1 + 1) 1).1 = doy.1 + 1 := by
  decide

/-- C6: `isLeapYear` agrees with the Gregorian rule, and the day-of-year
computation of `getCurrentDate` and the date recovery of
`getDateFromDayOfYear` are mutual inverses: a valid date (y, m, d) maps
to a day of year and back to (d, m) whenever the current date resolves
the year to y, and every valid day of year of year y maps to a date and
back to itself. -/
theorem C6_calendar (y m d : Nat)
    (hm1 : 1 ≤ m) (hm2 : m ≤ 12) (hd1 : 1 ≤ d) (hd2 : d ≤ getDaysInMonth y m)
    (cdy : Nat) (hin : dateToDayOfYear y m d ≤ cdy) :
    (isLeapYear y = true ↔ (4 ∣ y ∧ (¬(100 ∣ y) ∨ 400 ∣ y))) ∧
    getDateFromDayOfYear y cdy (dateToDayOfYear y m d) = (d, m) ∧
    (∀ doy : Nat, 1 ≤ doy → doy ≤ (if isLeapYear y then 366 else 365) →
      dateToDayOfYear y (dayMonthLoop y 12 doy 1).2 (dayMonthLoop y 12 doy 1).1 = doy) := by
  refine ⟨?_, ?_, ?_⟩
  · simp only [isLeapYear, Bool.and_eq_true, beq_iff_eq, Bool.or_eq_true, bne_iff_ne, ne_eq,
      Nat.dvd_iff_mod_eq_zero]
  · rw [getDateFromDayOfYear]
    rw [if_pos hin]
    by_cases hly : isLeapYear y
    · have hc : isLeapYear y = isLeapYear 2024 := by rw [hly]; rfl
      rw [dayMonthLoop_congr hc, dateToDayOfYear_congr hc]
      have hb : (d - 1) + 1 ≤ getDaysInMonth 2024 ((m - 1) + 1) := by
        rw [Nat.sub_add_cancel hd1, Nat.sub_add_cancel hm1, ← getDaysInMonth_congr hc m]
        exact hd2
      have := dayMonth_roundtrip_2024 ⟨m - 1, by omega⟩
        ⟨d - 1, by have := getDaysInMonth_le_31 y m; omega⟩ hb
      rw [Nat.sub_add_cancel hm1, Nat.sub_add_cancel hd1] at this
      exact this
    · have hc : isLeapYear y = isLeapYear 2025 := by
        rw [Bool.not_eq_true] at hly
        rw [hly]; rfl
      rw [dayMonthLoop_congr hc, dateToDayOfYear_congr hc]
      have hb : (d - 1) + 1 ≤ getDaysInMonth 2025 ((m - 1) + 1) := by
        rw [Nat.sub_add_cancel hd1, Nat.sub_add_cancel hm1, ← getDaysInMonth_congr hc m]
        exact hd2
      have := dayMonth_roundtrip_2025 ⟨m - 1, by omega⟩
        ⟨d - 1, by have := getDaysInMonth_le_31 y m; omega⟩ hb
      rw [Nat.sub_add_cancel hm1, Nat.sub_add_cancel hd1] at this
      exact this
  · intro doy h1 h366
    by_cases hly : isLeapYear y
    · have hc : isLeapYear y = isLeapYear 2024 := by rw [hly]; rfl
      rw [hly, if_pos rfl] at h366
      rw [dayMonthLoop_congr hc, dateToDayOfYear_congr hc]
      have := doy_roundtrip_2024 ⟨doy - 1, by omega⟩
      rw [Nat.sub_add_cancel h1] at this
      exact this
    · have hc : isLeapYear y = isLeapYear 2025 := by
        rw [Bool.not_eq_true] at hly
        rw [hly]; rfl
      rw [if_neg hly] at h366
      rw [dayMonthLoop_congr hc, dateToDayOfYear_congr hc]
      have := doy_roundtrip_2025 ⟨doy - 1, by omega⟩
      rw [Nat.sub_add_cancel h1] at this
      exact this

/-- C6 witness: the roundtrips hold concretely for 15 March 2025
(day of year 74) with the current date at day 100 of 2025. -/
theorem C6_calendar_witness :
    (1 ≤ 3 ∧ 3 ≤ 12 ∧ 1 ≤ 15 ∧ 15 ≤ getDaysInMonth 2025 3 ∧
      dateToDayOfYear 2025 3 15 ≤ 100) ∧
    ((isLeapYear 2025 = true ↔ (4 ∣ 2025 ∧ (¬(100 ∣ 2025) ∨ 400 ∣ 2025))) ∧
     getDateFromDayOfYear 2025 100 (dateToDayOfYear 2025 3 15) = (15, 3) ∧
     (∀ doy : Nat, 1 ≤ doy → doy ≤ (if isLeapYear 2025 then 366 else 365) →
       dateToDayOfYear 2025 (dayMonthLoop 2025 12 doy 1).2
         (dayMonthLoop 2025 12 doy 1).1 = doy)) :=
  ⟨⟨by decide, by decide, by decide, by decide, by decide⟩,
   C6_calendar 2025 3 15 (by decide) (by decide) (by decide) (by decide) 100 (by decide)⟩

/-! ### C7: window resolution of the statistics loop -/

theorem aggLoop_in_year (dows : Nat) (e : Log) (sd psd dprev : Int) :
    ∀ (n : Nat) (day : Int) (s : AggState), 1 ≤ day →
      aggLoop dows e sd psd dprev n day s = naiveScan dows e sd n day s := by
  intro n
  induction n with
  | zero => intro day s _; rfl
  | succ n ih =>
    intro day s hday
    simp only [aggLoop, naiveScan, statIdxDow, if_pos hday]
    exact ih (day + 1) _ (by omega)

theorem aggLoop_prev_year (dows : Nat) (e : Log) (sd psd dprev : Int) :
    ∀ (n : Nat) (day : Int) (s : AggState), day + n ≤ 1 →
      aggLoop dows e sd psd dprev n day s = naiveScan dows e psd n (day + dprev) s := by
  intro n
  induction n with
  | zero => intro day s _; rfl
  | succ n ih =>
    intro day s hday
    have h0 : ¬(1 ≤ day) := by push_cast at hday; omega
    simp only [aggLoop, naiveScan, statIdxDow, if_neg h0]
    rw [ih (day + 1) _ (by push_cast at hday ⊢; omega),
      show day + 1 + dprev = day + dprev + 1 from by ring]

theorem aggLoop_split (dows : Nat) (e : Log) (sd psd dprev : Int) :
    ∀ (n1 n2 : Nat) (day : Int) (s : AggState),
      aggLoop dows e sd psd dprev (n1 + n2) day s =
        aggLoop dows e sd psd dprev n2 (day + n1) (aggLoop dows e sd psd dprev n1 day s) := by
  intro n1
  induction n1 with
  | zero =>
    intro n2 day s
    simp [aggLoop]
  | succ n ih =>
    intro n2 day s
    rw [show n + 1 + n2 = (n + n2) + 1 from by omega]
    simp only [aggLoop]
    rw [ih n2 (day + 1) _,
      show day + 1 + (n : Int) = day + ((n + 1 : Nat) : Int) from by push_cast; ring]

/-- C7: a rolling window wholly inside the year (startDay ≥ 1) aggregates
exactly the cells startDay..endDay of the current year, as a naive
re-scan of those cells with this year's January-1 day of week; a window
with startDay ≤ 0 spanning New Year aggregates the previous year's tail
cells startDay+daysInPreviousYear .. daysInPreviousYear — each day index
d ≤ 0 is read from cell d + daysInPreviousYear, with daysInPreviousYear
leap-adjusted (366 iff the previous year is leap) and the day of week
derived from the previous year's January-1 day of week — followed by the
current year's cells 1..endDay. -/
theorem C7_window_cells (dows units : Nat) (e : Log) (startDay endDay startDow : Int)
    (year : Nat) :
    (1 ≤ startDay →
      getStatisticsByPeriod dows units e startDay endDay startDow year =
        statsStore units (naiveScan dows e startDow (endDay + 1 - startDay).toNat
          startDay aggInitState)) ∧
    (startDay ≤ 0 → 1 ≤ endDay →
      getStatisticsByPeriod dows units e startDay endDay startDow year =
        statsStore units (naiveScan dows e startDow endDay.toNat 1
          (naiveScan dows e (prevYearStartDow startDow (daysInPrevYear year))
            (1 - startDay).toNat (startDay + daysInPrevYear year) aggInitState))) := by
  constructor
  · intro h1
    simp only [getStatisticsByPeriod]
    rw [aggLoop_in_year dows e startDow _ _ _ startDay aggInitState h1]
  · intro h0 h1
    simp only [getStatisticsByPeriod]
    have hsplit : (endDay + 1 - startDay).toNat = (1 - startDay).toNat + endDay.toNat := by
      omega
    rw [hsplit, aggLoop_split,
      show startDay + (((1 - startDay).toNat : Nat) : Int) = 1 from by omega,
      aggLoop_in_year dows e startDow _ _ endDay.toNat 1 _ (by norm_num),
      aggLoop_prev_year dows e startDow _ _ ((1 - startDay).toNat) startDay aggInitState
        (by omega)]

/-- C7 witness: both window shapes hold concretely on the week log — an
in-year window over cells 2..4 and a New-Year-spanning window from day
−2 to day 3. -/
theorem C7_window_cells_witness :
    (1 ≤ (2 : Int) ∧ ((-2 : Int) ≤ 0 ∧ 1 ≤ (3 : Int))) ∧
    (getStatisticsByPeriod SEVEN_DAYS 0 eWeekCounts 2 4 1 2026 =
      statsStore 0 (naiveScan SEVEN_DAYS eWeekCounts 1 ((4 : Int) + 1 - 2).toNat 2
        aggInitState)) ∧
    (getStatisticsByPeriod SEVEN_DAYS 0 eWeekCounts (-2) 3 1 2026 =
      statsStore 0 (naiveScan SEVEN_DAYS eWeekCounts 1 (3 : Int).toNat 1
        (naiveScan SEVEN_DAYS eWeekCounts
          (prevYearStartDow 1 (daysInPrevYear 2026))
          ((1 : Int) - (-2)).toNat ((-2) + daysInPrevYear 2026) aggInitState))) :=
  ⟨⟨by decide, by decide, by decide⟩,
   (C7_window_cells SEVEN_DAYS 0 eWeekCounts 2 4 1 2026).1 (by decide),
   (C7_window_cells SEVEN_DAYS 0 eWeekCounts (-2) 3 1 2026).2 (by decide) (by decide)⟩

/-! ### C8: the non-zero-days filter example -/

theorem naiveScan_week (sd : Int) :
    naiveScan NOT_0_DAYS eWeekCounts sd 7 1 aggInitState = ⟨10, 3, 5, 2⟩ := by
  simp [naiveScan, aggStep, eWeekCounts, aggInitState, NOT_0_DAYS, FIVE_DAYS, SIX_DAYS,
    EMPTY_VALUE, SPRINTS_END_BYTE]

theorem statsStore_week_sprints : statsStore 0 ⟨10, 3, 5, 2⟩ = (100, 20, 33, 50) := by
  simp only [statsStore]
  norm_num

theorem statsStore_week_hours : statsStore 1 ⟨10, 3, 5, 2⟩ = (41, 8, 13, 20) := by
  simp only [statsStore]
  norm_num

/-- C8: with the NOT_0_DAYS filter, aggregating the 7-day window whose
cells hold [2,0,0,5,0,0,3] counts exactly the 3 non-zero days regardless
of which weekday the window starts on: raw total 10 over 3 days, and the
stored fixed-point values are total 10×10 = 100 and average
⌊10×10/3⌋ = 33 in sprint units, and total ⌊4.16×10⌋ = 41 and average
⌊4.16×10/3⌋ = 13 in hour units. -/
theorem C8_not0_example (startDow : Int) :
    (naiveScan NOT_0_DAYS eWeekCounts startDow 7 1 aggInitState).totalSprints = 10 ∧
    (naiveScan NOT_0_DAYS eWeekCounts startDow 7 1 aggInitState).totalDays = 3 ∧
    getStatisticsByPeriod NOT_0_DAYS 0 eWeekCounts 1 7 startDow 2026 = (100, 20, 33, 50) ∧
    getStatisticsByPeriod NOT_0_DAYS 1 eWeekCounts 1 7 startDow 2026 = (41, 8, 13, 20) := by
  have hloop : ∀ units : Nat,
      getStatisticsByPeriod NOT_0_DAYS units eWeekCounts 1 7 startDow 2026 =
        statsStore units ⟨10, 3, 5, 2⟩ := by
    intro units
    simp only [getStatisticsByPeriod]
    rw [show ((7 : Int) + 1 - 1).toNat = 7 from by omega,
      aggLoop_in_year NOT_0_DAYS eWeekCounts startDow _ _ 7 1 aggInitState (by norm_num),
      naiveScan_week startDow]
  refine ⟨?_, ?_, ?_, ?_⟩
  · rw [naiveScan_week startDow]
  · rw [naiveScan_week startDow]
  · rw [hloop 0, statsStore_week_sprints]
  · rw [hloop 1, statsStore_week_hours]

/-! ### C9: interval sequencing at countdown completion -/

theorem setIntervalVals_fst (hero : Bool) (v : Nat) : (setIntervalVals hero v).1 = v := by
  simp only [setIntervalVals]
  split <;> rfl

/-- C9: when the countdown reaches 00:00 during the 25-minute work
interval (same calendar day, no save error), the sprint counter is
incremented, the incremented count is persisted into today's cell, and
the next interval is the 15-minute long break exactly when the
incremented counter is divisible by 4, else the 5-minute short break;
and when a break interval's countdown reaches 00:00 the interval is set
back to 25. -/
theorem C9_completion (hero : Bool) (e : Log) (day : Int) (s : TimerState)
    (hI : s.currentInterval = 25) (hm : s.minutes = 0) (hsec : s.seconds = 1)
    (ht : s.tenths = 9) (hc : s.sprintCounter + 1 ≤ 57)
    (hd1 : 1 ≤ day) (hd2 : day ≤ 366)
    (hv : validateNextDayCell 0 e day = 0) :
    (countingTick hero true day day e s).1.sprintCounter = s.sprintCounter + 1 ∧
    (countingTick hero true day day e s).2 day = s.sprintCounter + 1 ∧
    (countingTick hero true day day e s).1.currentInterval =
      (if (s.sprintCounter + 1) % 4 = 0 then 15 else 5) ∧
    (∀ s' : TimerState, (s'.currentInterval = 5 ∨ s'.currentInterval = 15) →
      s'.minutes = 0 → s'.seconds = 1 → s'.tenths = 9 →
      (countingTick hero true day day e s').1.currentInterval = 25) := by
  have hlog : (countingTick hero true day day e s).2 =
      writeCell (clearEndBytes (day + 1) 366 2 (writeCell e day (s.sprintCounter + 1)))
        (day + 1) SPRINTS_END_BYTE := by
    simp only [countingTick, hI, hm, hsec, ht]
    norm_num
    rw [saveSprint_eq_same e day (s.sprintCounter + 1) hv]
  refine ⟨?_, ?_, ?_, ?_⟩
  · simp only [countingTick, hI, hm, hsec, ht]
    norm_num
    rw [saveSprint_eq_same e day (s.sprintCounter + 1) hv]
  · rw [hlog]
    exact saveSprint_cell_day e day (s.sprintCounter + 1) hd1 hd2
      (by simp only [SPRINTS_END_BYTE]; omega)
  · simp only [countingTick, hI, hm, hsec, ht]
    norm_num
    rw [saveSprint_eq_same e day (s.sprintCounter + 1) hv]
    norm_num [setIntervalVals_fst]
  · intro s' h5 hm' hs' ht'
    rcases h5 with h5 | h5 <;>
      (simp only [countingTick, h5, hm', hs', ht']; norm_num [setIntervalVals_fst])

/-- C9 witness: a work interval completing at counter 3 on day 10 of an
all-empty log persists 4 and selects the 15-minute long break; a break
state completing returns to 25. -/
theorem C9_completion_witness :
    ((⟨25, 0, 1, 9, 3⟩ : TimerState).currentInterval = 25 ∧
      (⟨25, 0, 1, 9, 3⟩ : TimerState).minutes = 0 ∧
      (⟨25, 0, 1, 9, 3⟩ : TimerState).seconds = 1 ∧
      (⟨25, 0, 1, 9, 3⟩ : TimerState).tenths = 9 ∧
      (⟨25, 0, 1, 9, 3⟩ : TimerState).sprintCounter + 1 ≤ 57 ∧
      1 ≤ (10 : Int) ∧ (10 : Int) ≤ 366 ∧
      validateNextDayCell 0 eAllEmpty 10 = 0) ∧
    ((countingTick false true 10 10 eAllEmpty ⟨25, 0, 1, 9, 3⟩).1.sprintCounter = 3 + 1 ∧
     (countingTick false true 10 10 eAllEmpty ⟨25, 0, 1, 9, 3⟩).2 10 = 3 + 1 ∧
     (countingTick false true 10 10 eAllEmpty ⟨25, 0, 1, 9, 3⟩).1.currentInterval =
       (if (3 + 1) % 4 = 0 then 15 else 5) ∧
     (∀ s' : TimerState, (s'.currentInterval = 5 ∨ s'.currentInterval = 15) →
       s'.minutes = 0 → s'.seconds = 1 → s'.tenths = 9 →
       (countingTick false true 10 10 eAllEmpty s').1.currentInterval = 25)) :=
  ⟨⟨by decide, by decide, by decide, by decide, by decide, by decide, by decide, by decide⟩,
   C9_completion false eAllEmpty 10 ⟨25, 0, 1, 9, 3⟩ (by decide) (by decide) (by decide)
     (by decide) (by decide) (by decide) (by decide) (by decide)⟩

end RunUp
